import Mathlib

/-!
Verification of the StardustXR armillary turntable widget.

The source of truth is src/turntable.rs (with src/main.rs as the host glue).
f32 scalars are modelled as real numbers; IEEE rounding is out of scope, but
the one place where a non-finite float value matters (the INFINITY fallback of
interact_proximity) is modelled explicitly via an Option.

The input-action machinery (BaseInputAction / SingleActorAction) lives in the
external stardust_xr_molecules crate and the momentum-bearing rotation engine
belongs to the repository revision whose caller is main.rs (Turntable::update
taking FrameInfo); neither is under src/, so those parts are modelled from the
specification, as marked on each definition.
-/

namespace Armillary

noncomputable section

open Classical

/-- glam Vec3 with f32 components modelled as real numbers. -/
structure Vec3 where
  x : ℝ
  y : ℝ
  z : ℝ
deriving DecidableEq

/-- glam Vec3.lerp: componentwise a + (b - a) * t. -/
def vlerp (a b : Vec3) (t : ℝ) : Vec3 :=
  ⟨a.x + (b.x - a.x) * t, a.y + (b.y - a.y) * t, a.z + (b.z - a.z) * t⟩

/-- glam Vec3.distance: Euclidean distance between two points. -/
def dist3 (a b : Vec3) : ℝ :=
  Real.sqrt ((a.x - b.x) ^ 2 + (a.y - b.y) ^ 2 + (a.z - b.z) ^ 2)

/-- f32.hypot x z = sqrt (x^2 + z^2). -/
def hypot (x z : ℝ) : ℝ :=
  Real.sqrt (x ^ 2 + z ^ 2)

/-- Action of glam Quat.from_rotation_y θ on a vector: rotation about the
vertical (y) axis by θ radians. -/
def rotY (θ : ℝ) (v : Vec3) : Vec3 :=
  ⟨Real.cos θ * v.x + Real.sin θ * v.z, v.y, -Real.sin θ * v.x + Real.cos θ * v.z⟩

/-- f32.atan2 y x (four-quadrant arctangent; atan2 0 0 = 0). -/
def atan2 (y x : ℝ) : ℝ :=
  if 0 < x then Real.arctan (y / x)
  else if x < 0 then
    (if 0 ≤ y then Real.arctan (y / x) + Real.pi else Real.arctan (y / x) - Real.pi)
  else
    (if 0 < y then Real.pi / 2 else if y < 0 then -(Real.pi / 2) else 0)

/-- An rgba_linear color. -/
structure Color where
  r : ℝ
  g : ℝ
  b : ℝ
  a : ℝ
deriving DecidableEq

/-- A point of a stardust Lines drawable. -/
structure LinePoint where
  point : Vec3
  thickness : ℝ
  color : Color
deriving DecidableEq

/-- A line of a stardust Lines drawable. -/
structure Line where
  points : List LinePoint
  cyclic : Bool
deriving DecidableEq

/-- TurntableSettings (turntable.rs lines 19-26); line_count is a u32,
modelled as ℕ (its values never approach 2^32 here). -/
structure TurntableSettings where
  line_count : ℕ
  line_thickness : ℝ
  height : ℝ
  inner_radius : ℝ
  scroll_multiplier : ℝ

/-- std::f32::consts::TAU. -/
def TAU : ℝ := 2 * Real.pi

/-- TurntableSettings::grip_lines (turntable.rs lines 28-52): one line per
count index c, at angle (c / line_count) * TAU, with (x, y) = (sin a, cos a),
an inner point (x * inner_radius, 0, y * inner_radius) and an outer point
(x * outer_radius, -height, y * outer_radius), outer_radius =
inner_radius + height; both points white with the settings thickness. -/
def TurntableSettings.grip_lines (s : TurntableSettings) : List Line :=
  (List.range s.line_count).map (fun (c : ℕ) =>
    let a := (c : ℝ) / (s.line_count : ℝ) * TAU
    let x := Real.sin a
    let y := Real.cos a
    let outer_radius := s.inner_radius + s.height
    { points := [
        { point := ⟨x * s.inner_radius, 0, y * s.inner_radius⟩
          thickness := s.line_thickness
          color := ⟨1, 1, 1, 1⟩ },
        { point := ⟨x * outer_radius, -s.height, y * outer_radius⟩
          thickness := s.line_thickness
          color := ⟨1, 1, 1, 1⟩ }]
      cyclic := false })

/-- The five finger-tip positions of a stardust Hand input (only the tip
positions are read by this program). -/
structure HandInput where
  thumb : Vec3
  index : Vec3
  middle : Vec3
  ring : Vec3
  little : Vec3

/-- A Tip input: only its origin is read by this program. -/
structure TipInput where
  origin : Vec3

/-- InputDataType: the program only matches on the variant tag and reads the
fields above; the Pointer payload (origin, orientation, deepest point) is
never read by this program and is omitted. -/
inductive InputKind where
  | Pointer : InputKind
  | Hand : HandInput → InputKind
  | Tip : TipInput → InputKind

/-- The datamap payload: this program reads only the scroll_continuous vector
(components 0 and 1). -/
structure Datamap where
  scroll_x : ℝ
  scroll_y : ℝ

/-- InputData: uid (used for identity of the capture actor across frames),
variant payload, signed distance to the capture field, datamap. -/
structure InputData where
  id : ℕ
  input : InputKind
  distance : ℝ
  datamap : Datamap

/-- interact_point (turntable.rs lines 55-63): Hand gives the midpoint of
thumb tip and index tip (lerp with t = 0.5), Tip gives its origin, Pointer
gives none. -/
def interact_point (i : InputData) : Option Vec3 :=
  match i.input with
  | InputKind.Hand h => some (vlerp h.thumb h.index 0.5)
  | InputKind.Tip t => some t.origin
  | InputKind.Pointer => none

/-- interact_points (turntable.rs lines 64-78): Hand gives the five tips in
source order thumb, index, ring, middle, little; Tip its origin; Pointer the
empty list. interact_proximity (lines 83-95) inlines the same match. -/
def interact_points (i : InputData) : List Vec3 :=
  match i.input with
  | InputKind.Hand h => [h.thumb, h.index, h.ring, h.middle, h.little]
  | InputKind.Tip t => [t.origin]
  | InputKind.Pointer => []

/-- Iterator::reduce: none on the empty list, otherwise fold from the first
element. -/
def reduce {α : Type} (f : α → α → α) : List α → Option α
  | [] => none
  | x :: xs => some (xs.foldl f x)

/-- interact_proximity (turntable.rs lines 79-99): minimum distance from the
given point to any contact point of any event; the source finishes with
.unwrap_or(INFINITY), so the `none` result here stands for the f32 INFINITY
value produced when no contact point exists. -/
def interact_proximity (events : List InputData) (point : Vec3) : Option ℝ :=
  reduce min ((events.map interact_points).flatten.map (fun p => dist3 p point))

/-- interact_angle (turntable.rs lines 100-103): azimuth atan2(p.z, p.x) of
the representative interaction point, when it exists. -/
def interact_angle (i : InputData) : Option ℝ :=
  (interact_point i).map (fun p => atan2 p.z p.x)

/-- The pointer_hover_action condition (turntable.rs lines 138-141): the
event is a Pointer variant and its distance is negative. -/
def pointer_hover_cond (i : InputData) : Prop :=
  match i.input with
  | InputKind.Pointer => i.distance < 0
  | _ => False

/-- Modelled from the spec: the hover action's currently_acting set
(BaseInputAction of stardust_xr_molecules, which is not under src/) is
recomputed every frame as exactly the events satisfying the condition
closure, with no carried state. -/
def hover_set (events : List InputData) : List InputData :=
  events.filter (fun i => decide (pointer_hover_cond i))

/-- Turntable::scroll (turntable.rs lines 182-196): over the hover set, read
the scroll_continuous vector from each datamap, sum x + y per event, then
reduce by addition, defaulting to 0 for the empty set. -/
def scroll (events : List InputData) : ℝ :=
  (reduce (fun a b => a + b)
    ((hover_set events).map (fun i => i.datamap.scroll_x + i.datamap.scroll_y))).getD 0

/-- The slope gate of the touch_action condition (turntable.rs lines
146-150): some contact point p has p.y + height < hypot(p.x, p.z) -
inner_radius. -/
def slope_condition (s : TurntableSettings) (i : InputData) : Prop :=
  ∃ p ∈ interact_points i, p.y + s.height < hypot p.x p.z - s.inner_radius

/-- The touch_action capture condition (turntable.rs lines 143-155):
slope_condition && (distance < 0). -/
def capture_cond (s : TurntableSettings) (i : InputData) : Prop :=
  slope_condition s i ∧ i.distance < 0

/-- The single-actor capture machine's state: the current actor's uid (none
when Idle) and the actor_stopped edge flag of the frame just processed. -/
structure CaptureState where
  actor : Option ℕ
  stopped : Bool

/-- Modelled from the spec: the per-frame transition of SingleActorAction
(stardust_xr_molecules, not under src/), from spec section 4.2. While
Capturing, the actor persists exactly as long as an event with its uid is
present in the frame's event set and is released through the actor-stopped
edge; while Idle, the first event satisfying the capture condition becomes
the actor. -/
def capture_update (s : TurntableSettings) (st : CaptureState) (events : List InputData) :
    CaptureState :=
  match st.actor with
  | some a =>
    if events.any (fun i => i.id == a) then ⟨some a, false⟩
    else ⟨none, true⟩
  | none =>
    match events.find? (fun i => decide (capture_cond s i)) with
    | some i => ⟨some i.id, false⟩
    | none => ⟨none, false⟩

/-- The azimuth produced by the current capture actor this frame: look the
actor's uid up in the current event set (the molecules action yields the
current frame's InputData for the actor) and apply interact_angle
(turntable.rs lines 214-219). -/
def actor_angle (cap : CaptureState) (events : List InputData) : Option ℝ :=
  (cap.actor.bind (fun a => events.find? (fun i => i.id == a))).bind interact_angle

/-- The drag rotation delta applied by Turntable::update (turntable.rs lines
221-223): prev_angle - current angle when the actor yields an azimuth and a
previous azimuth is stored, 0 otherwise. -/
def drag_delta (prev : Option ℝ) (cap : CaptureState) (events : List InputData) : ℝ :=
  match actor_angle cap events, prev with
  | some a, some p => p - a
  | _, _ => 0

/-- The map_range crate's MapRange::map_range (used at turntable.rs line
237): linear map sending [a1, b1] to [a2, b2], without clamping. -/
def map_range (v a1 b1 a2 b2 : ℝ) : ℝ :=
  a2 + (v - a1) * (b2 - a2) / (b1 - a1)

/-- f32::clamp lo hi (for lo ≤ hi, on non-NaN input). -/
def clampR (v lo hi : ℝ) : ℝ :=
  max lo (min hi v)

/-- The grip intensity computed by Turntable::update (turntable.rs lines
233-238): interact_proximity of the rotated point, map_range(0.05..0.0,
1.0..0.0), clamp(0.0, 1.0). The `none` case is the INFINITY fallback of
interact_proximity: in f32, INFINITY.map_range(0.05..0.0, 1.0..0.0) =
INFINITY and INFINITY.clamp(0.0, 1.0) = 1.0, so it yields intensity 1. -/
def proximity_intensity (events : List InputData) (point : Vec3) : ℝ :=
  match interact_proximity events point with
  | some d => clampR (map_range d 0.05 0 1 0) 0 1
  | none => 1

/-- The grip recolor loop of Turntable::update (turntable.rs lines 230-242):
every point of every line keeps its position and thickness and gets color
(i, i, i, 1) where i is the proximity intensity of the point rotated by the
current accumulated rotation about the vertical axis. -/
def recolor (rotation : ℝ) (events : List InputData) (lines : List Line) : List Line :=
  lines.map (fun l =>
    { l with points := l.points.map (fun p =>
        let i := proximity_intensity events (rotY rotation p.point)
        { p with color := ⟨i, i, i, 1⟩ }) })

/-- The turntable's mutable state (turntable.rs lines 105-118), restricted to
what the program reads and writes: the settings, the grip line list, the
capture machine, prev_angle, the accumulated rotation, and content_rotation,
the rotation angle last pushed to the content node via
set_rotation(Quat::from_rotation_y(rotation)). -/
structure Turntable where
  settings : TurntableSettings
  grip_lines : List Line
  capture : CaptureState
  prev_angle : Option ℝ
  rotation : ℝ
  content_rotation : ℝ

/-- Turntable::create (turntable.rs lines 120-173), state part: grip lines
from the settings, capture machine Idle, prev_angle None, rotation 0. -/
def Turntable.create (s : TurntableSettings) : Turntable :=
  ⟨s, s.grip_lines, ⟨none, false⟩, none, 0, 0⟩

/-- Turntable::rotate (turntable.rs lines 197-202): rotation += angle, then
push Quat::from_rotation_y(rotation) to the content node. -/
def Turntable.rotate (t : Turntable) (angle : ℝ) : Turntable :=
  { t with rotation := t.rotation + angle, content_rotation := t.rotation + angle }

/-- Turntable::update (turntable.rs lines 204-243): update the actions from
the frame's events, apply the scroll rotation, apply the drag delta and store
the actor's azimuth when available, clear prev_angle on the actor-stopped
edge, then recolor the grip using the post-drag rotation and the full
(unfiltered) event set. -/
def Turntable.update (t : Turntable) (events : List InputData) : Turntable :=
  let cap := capture_update t.settings t.capture events
  let t1 : Turntable := { t with capture := cap }
  let t2 := t1.rotate (-(scroll events) * t.settings.scroll_multiplier)
  let t3 : Turntable :=
    match actor_angle cap events with
    | some angle =>
      match t2.prev_angle with
      | some p => { t2.rotate (p - angle) with prev_angle := some angle }
      | none => { t2 with prev_angle := some angle }
    | none => t2
  let t4 : Turntable := if cap.stopped then { t3 with prev_angle := none } else t3
  { t4 with grip_lines := recolor t4.rotation events t4.grip_lines }

/-- Modelled from the spec: the momentum-bearing rotation engine state (spec
sections 3 and 4.3). The revision of Turntable::update that carries
angular_momentum is the one whose caller is src/main.rs (update taking
FrameInfo), but that revision of turntable.rs is not under src/; its state
adds angular_momentum to the fields above. -/
structure RotationEngine where
  capture : CaptureState
  prev_angle : Option ℝ
  rotation : ℝ
  angular_momentum : ℝ

/-- Modelled from the spec: the momentum-bearing per-frame update (spec
section 4.3, steps 1-6, in order), over the same action tracker and
classifier as the src code: 1. angular_momentum *= 0.98; 2. rotate
(-scroll_total * scroll_multiplier); 3. if the capture actor yields an
azimuth: if prev_angle exists, rotate (prev_angle - angle) and set
angular_momentum = delta * dt, then store the azimuth; 4. clear prev_angle on
the actor-stopped edge; 5. if not capturing, rotate (angular_momentum / dt). -/
def engine_update (s : TurntableSettings) (e : RotationEngine) (events : List InputData)
    (dt : ℝ) : RotationEngine :=
  let cap := capture_update s e.capture events
  let m1 := e.angular_momentum * 0.98
  let r1 := e.rotation + (-(scroll events) * s.scroll_multiplier)
  let step3 : ℝ × ℝ × Option ℝ :=
    match actor_angle cap events with
    | some angle =>
      match e.prev_angle with
      | some p => (r1 + (p - angle), (p - angle) * dt, some angle)
      | none => (r1, m1, some angle)
    | none => (r1, m1, e.prev_angle)
  let prev2 := if cap.stopped then none else step3.2.2
  let r2 := if cap.actor.isSome then step3.1 else step3.1 + step3.2.1 / dt
  ⟨cap, prev2, r2, step3.2.1⟩

/-- N coasting frames: iterate the momentum-bearing update with an empty
input set (no drag, no hover) at a fixed dt. -/
def coast (s : TurntableSettings) (dt : ℝ) : RotationEngine → ℕ → RotationEngine
  | e, 0 => e
  | e, n + 1 => coast s dt (engine_update s e [] dt) n

/-! ### Helper lemmas -/

theorem foldl_add_eq (x : ℝ) (xs : List ℝ) :
    xs.foldl (fun a b => a + b) x = x + xs.sum := by
  induction xs generalizing x with
  | nil => simp
  | cons y ys ih => simp [ih, add_assoc]

theorem scroll_eq_sum (events : List InputData) :
    scroll events
      = ((hover_set events).map (fun i => i.datamap.scroll_x + i.datamap.scroll_y)).sum := by
  rcases h : (hover_set events).map (fun i => i.datamap.scroll_x + i.datamap.scroll_y)
    with _ | ⟨x, xs⟩ <;> simp [scroll, reduce, h, foldl_add_eq]

theorem update_grip_eq (t : Turntable) (events : List InputData) :
    (t.update events).grip_lines = recolor (t.update events).rotation events t.grip_lines := by
  unfold Turntable.update
  rcases h : actor_angle (capture_update t.settings t.capture events) events with _ | angle <;>
    rcases hp : t.prev_angle with _ | p <;>
      simp [Turntable.rotate, h, hp] <;> split <;> simp

theorem update_rotation_eq (t : Turntable) (events : List InputData) :
    (t.update events).rotation
      = t.rotation + (-(scroll events) * t.settings.scroll_multiplier)
        + drag_delta t.prev_angle (capture_update t.settings t.capture events) events := by
  unfold Turntable.update drag_delta
  rcases h : actor_angle (capture_update t.settings t.capture events) events with _ | angle <;>
    rcases hp : t.prev_angle with _ | p <;>
      simp [Turntable.rotate, h, hp] <;> split <;> simp

theorem update_content_eq (t : Turntable) (events : List InputData) :
    (t.update events).content_rotation = (t.update events).rotation := by
  unfold Turntable.update
  rcases h : actor_angle (capture_update t.settings t.capture events) events with _ | angle <;>
    rcases hp : t.prev_angle with _ | p <;>
      simp [Turntable.rotate, h, hp] <;> split <;> simp

theorem foldl_rotate_sum (t : Turntable) (deltas : List ℝ) :
    (List.foldl Turntable.rotate t deltas).rotation = t.rotation + deltas.sum := by
  induction deltas generalizing t with
  | nil => simp
  | cons d ds ih => simp [ih, Turntable.rotate, add_assoc]

/-! ### Claim theorems -/

/-- Claim C8: the grip geometry generated at construction has exactly
line_count lines (two vertices each), line index c sits at angle
(c / line_count) * 2π with an inner point (sin·inner_radius, 0,
cos·inner_radius) and an outer point (sin·outer_radius, -height,
cos·outer_radius), outer_radius = inner_radius + height, and line_count = 0
yields the empty grip rather than failing. -/
theorem c8_grip_geometry (s : TurntableSettings) (c : ℕ) :
    s.grip_lines.length = s.line_count ∧
    (s.line_count = 0 → s.grip_lines = []) ∧
    (c < s.line_count → s.grip_lines[c]? = some
      { points := [
          { point := ⟨Real.sin ((c : ℝ) / (s.line_count : ℝ) * TAU) * s.inner_radius, 0,
                      Real.cos ((c : ℝ) / (s.line_count : ℝ) * TAU) * s.inner_radius⟩
            thickness := s.line_thickness
            color := ⟨1, 1, 1, 1⟩ },
          { point := ⟨Real.sin ((c : ℝ) / (s.line_count : ℝ) * TAU) * (s.inner_radius + s.height),
                      -s.height,
                      Real.cos ((c : ℝ) / (s.line_count : ℝ) * TAU) * (s.inner_radius + s.height)⟩
            thickness := s.line_thickness
            color := ⟨1, 1, 1, 1⟩ }]
        cyclic := false }) := by
  refine ⟨?_, fun h0 => ?_, fun h => ?_⟩
  · unfold TurntableSettings.grip_lines
    rw [List.length_map, List.length_range]
  · unfold TurntableSettings.grip_lines
    rw [h0]
    rfl
  · unfold TurntableSettings.grip_lines
    rw [List.getElem?_map, List.getElem?_range h]
    rfl

/-- Claim C8 witness: settings with line_count = 0 give the empty grip, and
with line_count = 2 the grip has two lines whose first line carries the
claimed inner and outer points at angle (0 / 2) * TAU. -/
theorem c8_grip_geometry_witness :
    (⟨0, 1, 1, 1, 1⟩ : TurntableSettings).grip_lines = [] ∧
    (⟨2, 1, 1, 1, 1⟩ : TurntableSettings).grip_lines.length = 2 ∧
    (⟨2, 1, 1, 1, 1⟩ : TurntableSettings).grip_lines[(0 : ℕ)]? = some
      { points := [
          { point := ⟨Real.sin (((0 : ℕ) : ℝ) / ((2 : ℕ) : ℝ) * TAU) * 1, 0,
                      Real.cos (((0 : ℕ) : ℝ) / ((2 : ℕ) : ℝ) * TAU) * 1⟩
            thickness := 1
            color := ⟨1, 1, 1, 1⟩ },
          { point := ⟨Real.sin (((0 : ℕ) : ℝ) / ((2 : ℕ) : ℝ) * TAU) * (1 + 1), -1,
                      Real.cos (((0 : ℕ) : ℝ) / ((2 : ℕ) : ℝ) * TAU) * (1 + 1)⟩
            thickness := 1
            color := ⟨1, 1, 1, 1⟩ }]
        cyclic := false } :=
  ⟨(c8_grip_geometry ⟨0, 1, 1, 1, 1⟩ 0).2.1 rfl,
   (c8_grip_geometry ⟨2, 1, 1, 1, 1⟩ 0).1,
   (c8_grip_geometry ⟨2, 1, 1, 1, 1⟩ 0).2.2 (by decide)⟩

/-- Claim C9: every update leaves the grip lines' point positions,
thicknesses, cyclic flags and the number of lines and vertices unchanged;
only the colors change. -/
theorem c9_update_recolors_only (t : Turntable) (events : List InputData) :
    (t.update events).grip_lines.length = t.grip_lines.length ∧
    (t.update events).grip_lines.map
        (fun l => (l.points.map (fun p => (p.point, p.thickness)), l.cyclic))
      = t.grip_lines.map
        (fun l => (l.points.map (fun p => (p.point, p.thickness)), l.cyclic)) := by
  rw [update_grip_eq t events]
  constructor
  · simp [recolor]
  · simp [recolor, List.map_map, Function.comp]

/-- Claim C7: rotate adds its angle to the rotation field with no clamping or
wraparound, pushes the accumulated rotation (about the vertical axis) to the
content node, rotation starts at 0 at creation and any sequence of rotate
calls accumulates the sum of the deltas; update keeps the pushed content
rotation equal to the rotation field. -/
theorem c7_rotate_accumulates (t : Turntable) (a : ℝ) (deltas : List ℝ)
    (s : TurntableSettings) (events : List InputData) :
    (t.rotate a).rotation = t.rotation + a ∧
    (t.rotate a).content_rotation = (t.rotate a).rotation ∧
    (Turntable.create s).rotation = 0 ∧
    (List.foldl Turntable.rotate t deltas).rotation = t.rotation + deltas.sum ∧
    (t.update events).content_rotation = (t.update events).rotation := by
  exact ⟨rfl, rfl, rfl, foldl_rotate_sum t deltas, update_content_eq t events⟩

theorem pointer_hover_cond_iff (i : InputData) :
    pointer_hover_cond i ↔ i.input = InputKind.Pointer ∧ i.distance < 0 := by
  unfold pointer_hover_cond
  rcases h : i.input with _ | h' | t' <;> simp [h]

theorem update_capture_eq (t : Turntable) (events : List InputData) :
    (t.update events).capture = capture_update t.settings t.capture events := by
  unfold Turntable.update
  rcases h : actor_angle (capture_update t.settings t.capture events) events with _ | angle <;>
    rcases hp : t.prev_angle with _ | p <;>
      simp [Turntable.rotate, h, hp] <;> split <;> simp

theorem update_prev_eq (t : Turntable) (events : List InputData) :
    (t.update events).prev_angle
      = if (capture_update t.settings t.capture events).stopped then none
        else
          match actor_angle (capture_update t.settings t.capture events) events with
          | some a => some a
          | none => t.prev_angle := by
  unfold Turntable.update
  rcases h : actor_angle (capture_update t.settings t.capture events) events with _ | angle <;>
    rcases hp : t.prev_angle with _ | p <;>
      simp [Turntable.rotate, h, hp] <;> split <;> rfl

theorem capture_update_cases (s : TurntableSettings) (st : CaptureState)
    (events : List InputData) :
    capture_update s st events = ⟨none, true⟩ ∨ (capture_update s st events).stopped = false := by
  unfold capture_update
  rcases st.actor with _ | a
  · rcases events.find? (fun i => decide (capture_cond s i)) with _ | i
    · right
      rfl
    · right
      rfl
  · rcases hany : events.any (fun i => i.id == a)
    · left
      simp [hany]
    · right
      simp [hany]

theorem capture_update_stopped_actor (s : TurntableSettings) (st : CaptureState)
    (events : List InputData) (h : (capture_update s st events).stopped = true) :
    (capture_update s st events).actor = none := by
  rcases capture_update_cases s st events with hc | hc
  · rw [hc]
  · rw [hc] at h
    simp at h

theorem capture_update_persists (s : TurntableSettings) (st : CaptureState)
    (events : List InputData) (b : ℕ) (hb : st.actor = some b)
    (h : (capture_update s st events).stopped = false) :
    (capture_update s st events).actor = some b := by
  unfold capture_update at h ⊢
  rw [hb] at h ⊢
  rcases hany : events.any (fun i => i.id == b) <;> simp [hany] at h ⊢

theorem actor_angle_actor_isSome {cap : CaptureState} {events : List InputData} {α : ℝ}
    (h : actor_angle cap events = some α) : cap.actor.isSome = true := by
  unfold actor_angle at h
  rcases ha : cap.actor with _ | a
  · rw [ha] at h
    simp at h
  · rfl

/-- Claim C4: the hover set is exactly the events that are Pointer variants
with negative distance, the scroll total sums (scroll.x + scroll.y) over that
set (0 when it is empty), and each update advances the rotation by
-scroll_total * scroll_multiplier (plus the drag delta, which is independent
of the hover set). -/
theorem c4_hover_scroll (t : Turntable) (events : List InputData) (i : InputData) :
    (i ∈ hover_set events ↔ i ∈ events ∧ i.input = InputKind.Pointer ∧ i.distance < 0) ∧
    scroll events
      = ((hover_set events).map (fun j => j.datamap.scroll_x + j.datamap.scroll_y)).sum ∧
    (hover_set events = [] → scroll events = 0) ∧
    (t.update events).rotation
      = t.rotation + (-(scroll events) * t.settings.scroll_multiplier)
        + drag_delta t.prev_angle (capture_update t.settings t.capture events) events := by
  refine ⟨?_, scroll_eq_sum events, fun h0 => ?_, update_rotation_eq t events⟩
  · rw [← pointer_hover_cond_iff]
    simp [hover_set, List.mem_filter]
  · rw [scroll_eq_sum, h0]
    rfl

/-- Claim C4 witness: an empty hover set yields scroll total 0, and the
update of a fresh turntable advances the rotation by the scroll and drag
terms. -/
theorem c4_hover_scroll_witness :
    scroll [] = 0 ∧
    (Turntable.update (Turntable.create ⟨1, 1, 0, 1, 1⟩) []).rotation
      = (Turntable.create ⟨1, 1, 0, 1, 1⟩).rotation
        + (-(scroll []) * (Turntable.create ⟨1, 1, 0, 1, 1⟩).settings.scroll_multiplier)
        + drag_delta (Turntable.create ⟨1, 1, 0, 1, 1⟩).prev_angle
            (capture_update (Turntable.create ⟨1, 1, 0, 1, 1⟩).settings
              (Turntable.create ⟨1, 1, 0, 1, 1⟩).capture []) [] := by
  have h := c4_hover_scroll (Turntable.create ⟨1, 1, 0, 1, 1⟩) []
    (⟨1, InputKind.Pointer, -1, ⟨2, 3⟩⟩ : InputData)
  exact ⟨h.2.2.1 rfl, h.2.2.2⟩

/-- Claim C5: from the Idle state, an event can become the capture actor only
if its distance is negative and some contact point p satisfies
p.y + height < hypot(p.x, p.z) - inner_radius. -/
theorem c5_capture_gate (s : TurntableSettings) (st : CaptureState) (events : List InputData)
    (a : ℕ) (hidle : st.actor = none)
    (hcap : (capture_update s st events).actor = some a) :
    ∃ i ∈ events, i.id = a ∧ i.distance < 0 ∧
      ∃ p ∈ interact_points i, p.y + s.height < hypot p.x p.z - s.inner_radius := by
  unfold capture_update at hcap
  rw [hidle] at hcap
  rcases hfind : events.find? (fun i => decide (capture_cond s i)) with _ | i
  · rw [hfind] at hcap
    simp at hcap
  · rw [hfind] at hcap
    simp at hcap
    have hmem := List.mem_of_find?_eq_some hfind
    have hcond := List.find?_some hfind
    rw [decide_eq_true_eq] at hcond
    exact ⟨i, hmem, hcap, hcond.2, hcond.1⟩

/-- Claim C5 witness: a Tip event at (2, 0, 0) with distance -1 is captured
from Idle under settings with height 0 and inner_radius 1. -/
theorem c5_capture_gate_witness :
    ∃ i ∈ [(⟨5, InputKind.Tip ⟨⟨2, 0, 0⟩⟩, -1, ⟨0, 0⟩⟩ : InputData)], i.id = 5 ∧
      i.distance < 0 ∧
      ∃ p ∈ interact_points i,
        p.y + (⟨1, 1, 0, 1, 1⟩ : TurntableSettings).height
          < hypot p.x p.z - (⟨1, 1, 0, 1, 1⟩ : TurntableSettings).inner_radius := by
  apply c5_capture_gate (⟨1, 1, 0, 1, 1⟩ : TurntableSettings) ⟨none, false⟩ _ 5 rfl
  have hcond : capture_cond (⟨1, 1, 0, 1, 1⟩ : TurntableSettings)
      (⟨5, InputKind.Tip ⟨⟨2, 0, 0⟩⟩, -1, ⟨0, 0⟩⟩ : InputData) := by
    constructor
    · refine ⟨⟨2, 0, 0⟩, by simp [interact_points], ?_⟩
      have h4 : hypot 2 0 = 2 := by
        unfold hypot
        rw [show ((2 : ℝ) ^ 2 + 0 ^ 2) = 2 ^ 2 by norm_num, Real.sqrt_sq (by norm_num)]
      rw [h4]
      norm_num
    · norm_num
  unfold capture_update
  simp [List.find?, hcond]

/-- Claim C6: when the capturing event disappears from the input set,
prev_angle becomes None on that very update and the drag delta is 0, and the
invariant that prev_angle is Some only while the capture machine holds an
actor is preserved by every update. -/
theorem c6_actor_stopped (t : Turntable) (events : List InputData) (a : ℕ)
    (hcap : t.capture.actor = some a) (habs : ∀ i ∈ events, i.id ≠ a) :
    ((t.update events).prev_angle = none ∧
      drag_delta t.prev_angle (capture_update t.settings t.capture events) events = 0) ∧
    ∀ u : Turntable, ∀ ev : List InputData,
      (u.prev_angle.isSome = true → u.capture.actor.isSome = true) →
      ((u.update ev).prev_angle.isSome = true → (u.update ev).capture.actor.isSome = true) := by
  have hany : (events.any (fun i => i.id == a)) = false := by
    rw [← Bool.not_eq_true, List.any_eq_true]
    rintro ⟨i, hi, hieq⟩
    exact habs i hi (by simpa using hieq)
  have hcu : capture_update t.settings t.capture events = ⟨none, true⟩ := by
    unfold capture_update
    rw [hcap]
    simp [hany]
  constructor
  · constructor
    · rw [update_prev_eq, hcu]
      rfl
    · unfold drag_delta actor_angle
      rw [hcu]
      rfl
  · intro u ev hinv hprev
    rw [update_capture_eq]
    rw [update_prev_eq] at hprev
    rcases hst : (capture_update u.settings u.capture ev).stopped
    · rw [hst] at hprev
      simp at hprev
      rcases haa : actor_angle (capture_update u.settings u.capture ev) ev with _ | α
      · rw [haa] at hprev
        simp at hprev
        have hold := hinv hprev
        rcases hb : u.capture.actor with _ | b
        · rw [hb] at hold
          simp at hold
        · rw [capture_update_persists u.settings u.capture ev b hb hst]
          rfl
      · exact actor_angle_actor_isSome haa
    · rw [hst] at hprev
      simp at hprev

/-- Claim C6 witness: a turntable capturing actor 0 with a stored previous
angle, updated with an empty input set, clears prev_angle. -/
theorem c6_actor_stopped_witness :
    ((Turntable.update ⟨⟨1, 1, 0, 1, 1⟩, [], ⟨some 0, false⟩, some 1, 0, 0⟩ []).prev_angle
        = none ∧
      drag_delta (some 1)
        (capture_update (⟨1, 1, 0, 1, 1⟩ : TurntableSettings) ⟨some 0, false⟩ []) [] = 0) ∧
    ∀ u : Turntable, ∀ ev : List InputData,
      (u.prev_angle.isSome = true → u.capture.actor.isSome = true) →
      ((u.update ev).prev_angle.isSome = true → (u.update ev).capture.actor.isSome = true) :=
  c6_actor_stopped ⟨⟨1, 1, 0, 1, 1⟩, [], ⟨some 0, false⟩, some 1, 0, 0⟩ [] 0 rfl
    (fun i hi => by simp at hi)

/-- Claim C10: a Pointer event has no contact points and no representative
point, hence no azimuth, it never satisfies the capture condition, and a
frame whose events are all Pointers contributes no proximity distance (the
minimum is the INFINITY fallback, modelled as none). -/
theorem c10_pointer_inert (s : TurntableSettings) (i : InputData) (events : List InputData)
    (point : Vec3) (hp : i.input = InputKind.Pointer)
    (hall : ∀ j ∈ events, j.input = InputKind.Pointer) :
    interact_points i = [] ∧ interact_point i = none ∧ interact_angle i = none ∧
    ¬ capture_cond s i ∧ interact_proximity events point = none := by
  have h1 : interact_points i = [] := by
    unfold interact_points
    rw [hp]
  have h2 : interact_point i = none := by
    unfold interact_point
    rw [hp]
  refine ⟨h1, h2, ?_, ?_, ?_⟩
  · unfold interact_angle
    rw [h2]
    rfl
  · rintro ⟨⟨p, hpmem, _⟩, _⟩
    rw [h1] at hpmem
    simp at hpmem
  · unfold interact_proximity
    have hflat : ∀ evs : List InputData, (∀ j ∈ evs, j.input = InputKind.Pointer) →
        (evs.map interact_points).flatten = ([] : List Vec3) := by
      intro evs hh
      induction evs with
      | nil => rfl
      | cons e es ih =>
        have he : interact_points e = [] := by
          unfold interact_points
          rw [hh e (by simp)]
        simp only [List.map_cons, List.flatten_cons, he, List.nil_append]
        exact ih (fun j hj => hh j (by simp [hj]))
    rw [hflat events hall]
    rfl

/-- Claim C10 witness at a concrete Pointer event. -/
theorem c10_pointer_inert_witness :
    interact_points (⟨7, InputKind.Pointer, -1, ⟨1, 2⟩⟩ : InputData) = [] ∧
    interact_point (⟨7, InputKind.Pointer, -1, ⟨1, 2⟩⟩ : InputData) = none ∧
    interact_angle (⟨7, InputKind.Pointer, -1, ⟨1, 2⟩⟩ : InputData) = none ∧
    ¬ capture_cond (⟨1, 1, 0, 1, 1⟩ : TurntableSettings)
        (⟨7, InputKind.Pointer, -1, ⟨1, 2⟩⟩ : InputData) ∧
    interact_proximity [(⟨7, InputKind.Pointer, -1, ⟨1, 2⟩⟩ : InputData)] ⟨0, 0, 0⟩ = none :=
  c10_pointer_inert (⟨1, 1, 0, 1, 1⟩ : TurntableSettings) _ _ ⟨0, 0, 0⟩ rfl
    (fun j hj => by rw [List.mem_singleton] at hj; rw [hj])

theorem capture_update_nil_actor (s : TurntableSettings) (st : CaptureState) :
    (capture_update s st []).actor = none := by
  unfold capture_update
  rcases st.actor with _ | a
  · rfl
  · simp

theorem actor_angle_nil (cap : CaptureState) : actor_angle cap [] = none := by
  unfold actor_angle
  rcases cap.actor with _ | a <;> rfl

theorem scroll_nil : scroll [] = 0 := rfl

theorem engine_update_nil (s : TurntableSettings) (e : RotationEngine) (dt : ℝ) :
    (engine_update s e [] dt).angular_momentum = e.angular_momentum * 0.98 ∧
    (engine_update s e [] dt).rotation
      = e.rotation + (engine_update s e [] dt).angular_momentum / dt := by
  constructor <;>
    simp [engine_update, actor_angle_nil, capture_update_nil_actor, scroll_nil]

/-- Claim C1: in the momentum-bearing update (modelled from the spec), the
angular momentum is decayed by the factor 0.98 each frame, and when no actor
is capturing the rotation is additionally advanced by angular_momentum / dt;
hence a frame with no input rotates by the decayed momentum over dt, and
after N input-free frames the momentum is the release momentum times
0.98 ^ N. -/
theorem c1_momentum_decay (s : TurntableSettings) (e : RotationEngine)
    (events : List InputData) (dt : ℝ) (N : ℕ) :
    ((capture_update s e.capture events).actor = none →
      (engine_update s e events dt).angular_momentum = e.angular_momentum * 0.98 ∧
      (engine_update s e events dt).rotation
        = e.rotation + (-(scroll events) * s.scroll_multiplier)
          + (engine_update s e events dt).angular_momentum / dt) ∧
    (engine_update s e [] dt).angular_momentum = e.angular_momentum * 0.98 ∧
    (engine_update s e [] dt).rotation
      = e.rotation + (engine_update s e [] dt).angular_momentum / dt ∧
    (coast s dt e N).angular_momentum = e.angular_momentum * (0.98 : ℝ) ^ N := by
  refine ⟨?_, (engine_update_nil s e dt).1, (engine_update_nil s e dt).2, ?_⟩
  · intro hnone
    have haa : actor_angle (capture_update s e.capture events) events = none := by
      unfold actor_angle
      rw [hnone]
      rfl
    constructor <;> simp [engine_update, haa, hnone]
  · induction N generalizing e with
    | zero => simp [coast]
    | succ n ih =>
      have hstep : coast s dt e (n + 1) = coast s dt (engine_update s e [] dt) n := rfl
      rw [hstep, ih, (engine_update_nil s e dt).1]
      ring

/-- Claim C1 witness: one input-free frame multiplies the momentum by 0.98,
two multiply it by 0.98 ^ 2, and the coasting frame rotates by the decayed
momentum over dt. -/
theorem c1_momentum_decay_witness :
    (engine_update (⟨1, 1, 0, 1, 1⟩ : TurntableSettings) ⟨⟨none, false⟩, none, 0, 1⟩ []
        1).angular_momentum = 1 * 0.98 ∧
    (engine_update (⟨1, 1, 0, 1, 1⟩ : TurntableSettings) ⟨⟨none, false⟩, none, 0, 1⟩ []
        1).rotation
      = 0 + (engine_update (⟨1, 1, 0, 1, 1⟩ : TurntableSettings) ⟨⟨none, false⟩, none, 0, 1⟩ []
          1).angular_momentum / 1 ∧
    (coast (⟨1, 1, 0, 1, 1⟩ : TurntableSettings) 1 ⟨⟨none, false⟩, none, 0, 1⟩
        2).angular_momentum = 1 * (0.98 : ℝ) ^ 2 := by
  have h := c1_momentum_decay (⟨1, 1, 0, 1, 1⟩ : TurntableSettings)
    ⟨⟨none, false⟩, none, 0, 1⟩ [] 1 2
  exact ⟨(h.1 rfl).1, h.2.2.1, h.2.2.2⟩

/-- Claim C3: while capturing, if the actor yields an azimuth and a previous
azimuth is stored, the rotation is advanced by exactly the raw difference
prev_angle - current_angle (no wraparound correction), the current azimuth
replaces prev_angle, and the angular momentum (modelled from the spec) is set
to that delta times dt. -/
theorem c3_drag_delta (s : TurntableSettings) (e : RotationEngine)
    (events : List InputData) (dt α p : ℝ) (a : ℕ)
    (hact : e.capture.actor = some a)
    (hin : (events.any (fun i => i.id == a)) = true)
    (hangle : actor_angle (capture_update s e.capture events) events = some α)
    (hprev : e.prev_angle = some p)
    (hscroll : scroll events = 0) :
    (engine_update s e events dt).rotation = e.rotation + (p - α) ∧
    (engine_update s e events dt).prev_angle = some α ∧
    (engine_update s e events dt).angular_momentum = (p - α) * dt := by
  have hcap : capture_update s e.capture events = ⟨some a, false⟩ := by
    unfold capture_update
    rw [hact]
    simp [hin]
  rw [hcap] at hangle
  refine ⟨?_, ?_, ?_⟩ <;> simp [engine_update, hcap, hangle, hprev, hscroll]

theorem atan2_zero_one : atan2 0 1 = 0 := by
  unfold atan2
  rw [if_pos one_pos]
  norm_num [Real.arctan_zero]

/-- Claim C3 witness: a captured Tip actor at azimuth 0 with stored previous
azimuth 0.2 rotates the turntable by 0.2 and sets the momentum to 0.2 * dt
with dt = 2. -/
theorem c3_drag_delta_witness :
    (engine_update (⟨1, 1, 0, 1, 1⟩ : TurntableSettings)
        ⟨⟨some 0, false⟩, some 0.2, 5, 7⟩
        [(⟨0, InputKind.Tip ⟨⟨1, 0, 0⟩⟩, -1, ⟨0, 0⟩⟩ : InputData)] 2).rotation
      = 5 + (0.2 - 0) ∧
    (engine_update (⟨1, 1, 0, 1, 1⟩ : TurntableSettings)
        ⟨⟨some 0, false⟩, some 0.2, 5, 7⟩
        [(⟨0, InputKind.Tip ⟨⟨1, 0, 0⟩⟩, -1, ⟨0, 0⟩⟩ : InputData)] 2).prev_angle = some 0 ∧
    (engine_update (⟨1, 1, 0, 1, 1⟩ : TurntableSettings)
        ⟨⟨some 0, false⟩, some 0.2, 5, 7⟩
        [(⟨0, InputKind.Tip ⟨⟨1, 0, 0⟩⟩, -1, ⟨0, 0⟩⟩ : InputData)] 2).angular_momentum
      = (0.2 - 0) * 2 := by
  apply c3_drag_delta (⟨1, 1, 0, 1, 1⟩ : TurntableSettings)
    ⟨⟨some 0, false⟩, some 0.2, 5, 7⟩
    [(⟨0, InputKind.Tip ⟨⟨1, 0, 0⟩⟩, -1, ⟨0, 0⟩⟩ : InputData)] 2 0 0.2 0 rfl rfl ?_ rfl ?_
  · have h1 : actor_angle
        (capture_update (⟨1, 1, 0, 1, 1⟩ : TurntableSettings) ⟨some 0, false⟩
          [(⟨0, InputKind.Tip ⟨⟨1, 0, 0⟩⟩, -1, ⟨0, 0⟩⟩ : InputData)])
        [(⟨0, InputKind.Tip ⟨⟨1, 0, 0⟩⟩, -1, ⟨0, 0⟩⟩ : InputData)] = some (atan2 0 1) := rfl
    rw [h1, atan2_zero_one]
  · have hh : hover_set [(⟨0, InputKind.Tip ⟨⟨1, 0, 0⟩⟩, -1, ⟨0, 0⟩⟩ : InputData)] = [] := by
      unfold hover_set
      rw [List.filter_eq_nil_iff]
      intro b hb
      rw [List.mem_singleton] at hb
      subst hb
      simp [pointer_hover_cond]
    simp [scroll, hh, reduce]

theorem map_range_linear (d : ℝ) : map_range d 0.05 0 1 0 = 20 * d := by
  unfold map_range
  norm_num
  ring

/-- Claim C2 (amended): after each update every grip vertex keeps its
position and is recolored to (i, i, i, 1), where i is the proximity intensity
of its rotated position; for a finite minimum distance d the intensity is the
linear image 20 * d of the map from [0.05, 0] to [1, 0], clamped to [0, 1]
(distance 0 gives black, distance at least 0.05 gives white); with zero
active input events the distance is the INFINITY fallback and the clamped
color is (1,1,1,1) (white), not (0,0,0,1). -/
theorem c2_proximity_color (t : Turntable) (events : List InputData) (rot : ℝ)
    (lines : List Line) (l : Line) (pt : LinePoint) (point : Vec3) (d : ℝ) :
    ((t.update events).grip_lines = recolor (t.update events).rotation events t.grip_lines) ∧
    (l ∈ recolor rot events lines → pt ∈ l.points →
      pt.color = ⟨proximity_intensity events (rotY rot pt.point),
        proximity_intensity events (rotY rot pt.point),
        proximity_intensity events (rotY rot pt.point), 1⟩) ∧
    map_range d 0.05 0 1 0 = 20 * d ∧
    (interact_proximity events point = some d →
      proximity_intensity events point = clampR (20 * d) 0 1) ∧
    (interact_proximity events point = some 0 → proximity_intensity events point = 0) ∧
    (interact_proximity events point = some d → 0.05 ≤ d →
      proximity_intensity events point = 1) ∧
    interact_proximity ([] : List InputData) point = none ∧
    proximity_intensity ([] : List InputData) point = 1 := by
  refine ⟨update_grip_eq t events, ?_, map_range_linear d, ?_, ?_, ?_, rfl, rfl⟩
  · intro hl hp
    unfold recolor at hl
    rcases List.mem_map.mp hl with ⟨l0, hl0, rfl⟩
    rcases List.mem_map.mp hp with ⟨p0, hp0, rfl⟩
    rfl
  · intro h
    unfold proximity_intensity
    rw [h]
    show clampR (map_range d 0.05 0 1 0) 0 1 = clampR (20 * d) 0 1
    rw [map_range_linear]
  · intro h
    unfold proximity_intensity
    rw [h]
    show clampR (map_range 0 0.05 0 1 0) 0 1 = 0
    rw [map_range_linear]
    norm_num [clampR]
  · intro h hd
    unfold proximity_intensity
    rw [h]
    show clampR (map_range d 0.05 0 1 0) 0 1 = 1
    rw [map_range_linear]
    unfold clampR
    rw [min_eq_left (by nlinarith), max_eq_right zero_le_one]

/-- Claim C2 witness: a contact exactly at a vertex's position gives
intensity 0 (black); zero active input events give intensity 1 (white). -/
theorem c2_proximity_color_witness :
    proximity_intensity [(⟨3, InputKind.Tip ⟨⟨0, 0, 0⟩⟩, -1, ⟨0, 0⟩⟩ : InputData)]
        ⟨0, 0, 0⟩ = 0 ∧
    proximity_intensity ([] : List InputData) ⟨0, 0, 0⟩ = 1 := by
  constructor
  · apply (c2_proximity_color (Turntable.create ⟨1, 1, 0, 1, 1⟩)
      [(⟨3, InputKind.Tip ⟨⟨0, 0, 0⟩⟩, -1, ⟨0, 0⟩⟩ : InputData)] 0 [] ⟨[], false⟩
      ⟨⟨0, 0, 0⟩, 1, ⟨1, 1, 1, 1⟩⟩ ⟨0, 0, 0⟩ 0).2.2.2.2.1
    have h0 : interact_proximity [(⟨3, InputKind.Tip ⟨⟨0, 0, 0⟩⟩, -1, ⟨0, 0⟩⟩ : InputData)]
        ⟨0, 0, 0⟩ = some (dist3 ⟨0, 0, 0⟩ ⟨0, 0, 0⟩) := rfl
    rw [h0]
    simp [dist3]
  · exact (c2_proximity_color (Turntable.create ⟨1, 1, 0, 1, 1⟩) [] 0 [] ⟨[], false⟩
      ⟨⟨0, 0, 0⟩, 1, ⟨1, 1, 1, 1⟩⟩ ⟨0, 0, 0⟩ 0).2.2.2.2.2.2.2

/-- Claim C2 counterexample: updating a freshly created turntable with zero
active input events recolors the grip vertices to (1,1,1,1) (white); the
claim's asserted color (0,0,0,1) for the zero-input case is wrong, because
the INFINITY distance maps to an infinite intensity that clamps to 1, not
to 0. -/
theorem c2_zero_input_counterexample :
    ((Turntable.update (Turntable.create ⟨1, 1, 1, 1, 1⟩) []).grip_lines.map
        (fun l => l.points.map (fun p => p.color)))
      = [[⟨1, 1, 1, 1⟩, ⟨1, 1, 1, 1⟩]] ∧
    (⟨1, 1, 1, 1⟩ : Color) ≠ ⟨0, 0, 0, 1⟩ := by
  constructor
  · rw [update_grip_eq]
    have hint : ∀ v : Vec3, proximity_intensity [] v = 1 := fun v => rfl
    have hr : List.range 1 = [0] := rfl
    simp [Turntable.create, TurntableSettings.grip_lines, recolor, hint, hr]
  · intro h
    have h1 : (1 : ℝ) = 0 := congrArg Color.r h
    norm_num at h1

end

end Armillary
